import Mathlib

/-!
Verification of the FinanzaFlow recurrence core.

The data model follows `types.ts`; the state-mutating operations
(`performDeleteInstance`, `performDeleteSeries`, `handleSaveTransaction`,
and the expansion-merge effect) are embedded from `App.tsx`.  The pure
utility module (`utils.ts`: `generateMissingRecurringTransactions`,
`calculateTotals`) is not present in the source tree, only its callers;
those definitions are modelled from the specification, as marked on each.

Modelling conventions: entity ids are natural numbers (the source uses
opaque generated strings compared only for equality); monetary amounts are
integers; calendar dates are year/month/day triples ordered
lexicographically (equivalent to the source's ISO `YYYY-MM-DD` strings).
-/

namespace FinanzaFlow

/-- Transaction kind (`types.ts`, `TransactionType`). -/
inductive TransactionType where
  | INCOME
  | EXPENSE
deriving DecidableEq

/-- Recurrence frequency (`types.ts`, `Frequency`). -/
inductive Frequency where
  | BIWEEKLY
  | MONTHLY
deriving DecidableEq

/-- Half-month selector (`types.ts`, the `'Q1' | 'Q2'` literal type). -/
inductive Quincena where
  | Q1
  | Q2
deriving DecidableEq

/-- Account kind (`types.ts`, `Account.type`). -/
inductive AccountKind where
  | CASH
  | BANK
  | CARD
deriving DecidableEq

/-- A naive calendar day, the meaning of the source's ISO `YYYY-MM-DD`
strings (no time component). -/
structure Date where
  year : Nat
  month : Nat
  day : Nat
deriving DecidableEq

/-- Strict chronological order on calendar days; for fixed-width ISO date
strings this is exactly the source's lexicographic string order. -/
def dateLt (a b : Date) : Bool :=
  a.year < b.year ||
    (a.year == b.year &&
      (a.month < b.month || (a.month == b.month && a.day < b.day)))

/-- `types.ts`, `Transaction`. -/
structure Transaction where
  id : Nat
  amount : Int
  type : TransactionType
  date : Date
  categoryId : Nat
  accountId : Nat
  note : String
  isRecurring : Bool
  recurrenceRuleId : Option Nat
deriving DecidableEq

/-- `types.ts`, `RecurrenceRule`. -/
structure RecurrenceRule where
  id : Nat
  frequency : Frequency
  quincenaN : Option Quincena
  startDate : Date
  endDate : Option Date
  amount : Int
  type : TransactionType
  categoryId : Nat
  accountId : Nat
  note : String
  baseDateDay : Nat
deriving DecidableEq

/-- `App.tsx` line 56, `RecurrenceException`. -/
structure RecurrenceException where
  ruleId : Nat
  date : Date
deriving DecidableEq

/-- `types.ts`, `Account`. -/
structure Account where
  id : Nat
  name : String
  kind : AccountKind
  balance : Int
deriving DecidableEq

/-- Gregorian leap-year test. -/
def isLeapYear (y : Nat) : Bool :=
  (y % 4 == 0 && y % 100 != 0) || y % 400 == 0

/-- Number of days in a month (month given 1-12), respecting leap years. -/
def daysInMonth (y m : Nat) : Nat :=
  if m == 2 then (if isLeapYear y then 29 else 28)
  else if m == 4 || m == 6 || m == 9 || m == 11 then 30
  else 31

/-- `d` is strictly before the rule's `startDate`. -/
def beforeStart (rule : RecurrenceRule) (d : Date) : Bool :=
  dateLt d rule.startDate

/-- `d` is strictly after the rule's `endDate` (never, when no `endDate`). -/
def afterEnd (rule : RecurrenceRule) (d : Date) : Bool :=
  match rule.endDate with
  | some e => dateLt e d
  | none => false

/-- Modelled from the spec (step 2 of the expansion algorithm): resolve the
anchor day within the target month — clamp `baseDateDay` to the month
length, then for `BIWEEKLY` rules force the day into the rule's half-month
(`Q1`: force day 15 when above; `Q2`: shift by 15 and clamp when at or
below 15). -/
def resolveDay (rule : RecurrenceRule) (dim : Nat) : Nat :=
  let day0 := min rule.baseDateDay dim
  match rule.frequency, rule.quincenaN with
  | Frequency.BIWEEKLY, some Quincena.Q1 => if day0 > 15 then 15 else day0
  | Frequency.BIWEEKLY, some Quincena.Q2 =>
      if day0 ≤ 15 then min (day0 + 15) dim else day0
  | _, _ => day0

/-- Modelled from the spec: the single candidate date a rule yields for a
target month (month 1-12) and year. -/
def candidateDate (rule : RecurrenceRule) (m y : Nat) : Date :=
  ⟨y, m, resolveDay rule (daysInMonth y m)⟩

/-- Modelled from the spec (step 1): the rule's activity window overlaps
the target month — it has started by the month's last day and (when
end-dated) has not ended before the month's first day. -/
def withinWindow (rule : RecurrenceRule) (m y : Nat) : Bool :=
  !(beforeStart rule ⟨y, m, daysInMonth y m⟩) && !(afterEnd rule ⟨y, m, 1⟩)

/-- Modelled from the spec (step 3): the candidate date itself lies within
the rule's `[startDate, endDate]` lifetime, at day granularity. -/
def withinBounds (rule : RecurrenceRule) (m y : Nat) : Bool :=
  !(beforeStart rule (candidateDate rule m y)) &&
    !(afterEnd rule (candidateDate rule m y))

/-- Modelled from the spec (step 4, first check): an existing transaction
already occupies this rule's slot for the candidate date. -/
def alreadyMaterialized (existing : List Transaction) (rule : RecurrenceRule)
    (c : Date) : Bool :=
  existing.any fun t => t.recurrenceRuleId == some rule.id && t.date == c

/-- Modelled from the spec (step 4, second check): the user explicitly
deleted this rule's instance for the candidate date. -/
def isException (exceptions : List RecurrenceException)
    (rule : RecurrenceRule) (c : Date) : Bool :=
  exceptions.any fun e => e.ruleId == rule.id && e.date == c

/-- Modelled from the spec (step 5): synthesize the new transaction for a
rule's candidate date.  The spec's "fresh unique id" is modelled by a
deterministic scheme over the rule id and target month; no verified
property constrains the ids of generated transactions. -/
def materialize (rule : RecurrenceRule) (m y : Nat) : Transaction :=
  { id := rule.id * 1000000 + y * 100 + m
    amount := rule.amount
    type := rule.type
    date := candidateDate rule m y
    categoryId := rule.categoryId
    accountId := rule.accountId
    note := rule.note ++ " (auto)"
    isRecurring := true
    recurrenceRuleId := some rule.id }

/-- Modelled from the spec (steps 1-5 combined, per rule): the at-most-one
transaction a single rule contributes for the target month. -/
def expandRule (existing : List Transaction) (m y : Nat)
    (exceptions : List RecurrenceException) (rule : RecurrenceRule) :
    Option Transaction :=
  if withinWindow rule m y && withinBounds rule m y &&
      !alreadyMaterialized existing rule (candidateDate rule m y) &&
      !isException exceptions rule (candidateDate rule m y)
  then some (materialize rule m y)
  else none

/-- Modelled from the spec: `generateMissingRecurringTransactions` from the
missing `utils.ts` module — the recurrence expansion engine.  Given rules,
the already-materialized transactions, a target month/year and the
exception set, it returns the transactions that must be synthesized,
processing each rule independently. -/
def generateMissingRecurringTransactions (rules : List RecurrenceRule)
    (existing : List Transaction) (m y : Nat)
    (exceptions : List RecurrenceException) : List Transaction :=
  rules.filterMap (expandRule existing m y exceptions)

/- ### Basic lemmas about the expansion engine -/

theorem mem_generate_iff {rules : List RecurrenceRule}
    {existing : List Transaction} {m y : Nat}
    {exceptions : List RecurrenceException} {g : Transaction} :
    g ∈ generateMissingRecurringTransactions rules existing m y exceptions ↔
      ∃ r, r ∈ rules ∧ expandRule existing m y exceptions r = some g := by
  simp [generateMissingRecurringTransactions, List.mem_filterMap]

theorem expandRule_eq_some {existing : List Transaction} {m y : Nat}
    {exceptions : List RecurrenceException} {r : RecurrenceRule}
    {g : Transaction} (h : expandRule existing m y exceptions r = some g) :
    g = materialize r m y ∧
      withinWindow r m y = true ∧ withinBounds r m y = true ∧
      alreadyMaterialized existing r (candidateDate r m y) = false ∧
      isException exceptions r (candidateDate r m y) = false := by
  unfold expandRule at h
  split at h
  case isTrue hc =>
    simp only [Bool.and_eq_true, Bool.not_eq_true'] at hc
    exact ⟨(Option.some.injEq _ _ ▸ h).symm,
      hc.1.1.1, hc.1.1.2, hc.1.2, hc.2⟩
  case isFalse => exact absurd h (by simp)

theorem materialize_ruleId (r : RecurrenceRule) (m y : Nat) :
    (materialize r m y).recurrenceRuleId = some r.id := rfl

theorem materialize_date (r : RecurrenceRule) (m y : Nat) :
    (materialize r m y).date = candidateDate r m y := rfl

/-- C1: the recurrence expansion engine is idempotent — running it again
with its own previous output merged into the existing transactions yields
the empty list, for every rule set, transaction set, target month/year and
exception set. -/
theorem expand_idempotent (rules : List RecurrenceRule)
    (T : List Transaction) (m y : Nat) (E : List RecurrenceException) :
    generateMissingRecurringTransactions rules
      (T ++ generateMissingRecurringTransactions rules T m y E) m y E = [] := by
  rw [generateMissingRecurringTransactions, List.filterMap_eq_nil_iff]
  intro r hr
  by_cases hW : withinWindow r m y = true
  case neg =>
    rw [Bool.not_eq_true] at hW
    simp [expandRule, hW]
  by_cases hB : withinBounds r m y = true
  case neg =>
    rw [Bool.not_eq_true] at hB
    simp [expandRule, hB]
  by_cases hI : isException E r (candidateDate r m y) = true
  case pos => simp [expandRule, hI]
  rw [Bool.not_eq_true] at hI
  by_cases hA : alreadyMaterialized T r (candidateDate r m y) = true
  case pos =>
    have hA2 : alreadyMaterialized
        (T ++ generateMissingRecurringTransactions rules T m y E) r
        (candidateDate r m y) = true := by
      unfold alreadyMaterialized at hA ⊢
      rw [List.any_append, hA, Bool.true_or]
    simp [expandRule, hA2]
  case neg =>
    rw [Bool.not_eq_true] at hA
    have hsome : expandRule T m y E r = some (materialize r m y) := by
      unfold expandRule
      rw [hW, hB, hA, hI]
      rfl
    have hmem : materialize r m y ∈
        generateMissingRecurringTransactions rules T m y E :=
      mem_generate_iff.mpr ⟨r, hr, hsome⟩
    have hA2 : alreadyMaterialized
        (T ++ generateMissingRecurringTransactions rules T m y E) r
        (candidateDate r m y) = true := by
      unfold alreadyMaterialized
      rw [List.any_eq_true]
      refine ⟨materialize r m y, List.mem_append_right _ hmem, ?_⟩
      simp [materialize_ruleId, materialize_date]
    simp [expandRule, hA2]

/-- C2: every transaction produced by the expansion engine comes from some
rule in the rule set, carries that rule's id, and its date is neither
strictly before the rule's `startDate` nor strictly after the rule's
`endDate` when one is set. -/
theorem expand_respects_bounds (rules : List RecurrenceRule)
    (existing : List Transaction) (m y : Nat)
    (exceptions : List RecurrenceException) (g : Transaction)
    (hg : g ∈ generateMissingRecurringTransactions rules existing m y
      exceptions) :
    ∃ r, r ∈ rules ∧ g.recurrenceRuleId = some r.id ∧
      dateLt g.date r.startDate = false ∧
      ∀ e, r.endDate = some e → dateLt e g.date = false := by
  obtain ⟨r, hr, hsome⟩ := mem_generate_iff.mp hg
  obtain ⟨hgm, _, hB, _, _⟩ := expandRule_eq_some hsome
  subst hgm
  refine ⟨r, hr, materialize_ruleId r m y, ?_, ?_⟩
  · have := hB
    unfold withinBounds beforeStart at this
    simp only [Bool.and_eq_true, Bool.not_eq_true'] at this
    rw [materialize_date]
    exact this.1
  · intro e he
    have := hB
    unfold withinBounds afterEnd at this
    simp only [Bool.and_eq_true, Bool.not_eq_true'] at this
    rw [materialize_date]
    have h2 := this.2
    rw [he] at h2
    exact h2

/-- Concrete instantiation of the bounds theorem: a monthly rule starting
2024-01-10 and ending 2024-12-31 generates, for March 2024, a transaction
within its lifetime. -/
def boundsRuleEx : RecurrenceRule :=
  ⟨1, Frequency.MONTHLY, none, ⟨2024, 1, 10⟩, some ⟨2024, 12, 31⟩,
    100, TransactionType.EXPENSE, 1, 1, "", 15⟩

theorem expand_respects_bounds_witness :
    ∃ r, r ∈ [boundsRuleEx] ∧
      (materialize boundsRuleEx 3 2024).recurrenceRuleId = some r.id ∧
      dateLt (materialize boundsRuleEx 3 2024).date r.startDate = false ∧
      ∀ e, r.endDate = some e →
        dateLt e (materialize boundsRuleEx 3 2024).date = false :=
  expand_respects_bounds [boundsRuleEx] [] 3 2024 []
    (materialize boundsRuleEx 3 2024) (by decide)

/- ### C3: quincena containment -/

theorem daysInMonth_ge (y m : Nat) : 28 ≤ daysInMonth y m := by
  unfold daysInMonth
  split
  · split
    · exact le_of_lt (by decide)
    · exact le_refl 28
  · split
    · decide
    · decide

theorem resolveDay_q1 (r : RecurrenceRule) (dim : Nat)
    (hf : r.frequency = Frequency.BIWEEKLY)
    (hq : r.quincenaN = some Quincena.Q1) : resolveDay r dim ≤ 15 := by
  unfold resolveDay
  rw [hf, hq]
  simp only []
  split
  · exact le_refl 15
  · omega

theorem resolveDay_q2 (r : RecurrenceRule) (dim : Nat)
    (hf : r.frequency = Frequency.BIWEEKLY)
    (hq : r.quincenaN = some Quincena.Q2)
    (hb : 1 ≤ r.baseDateDay) (hdim : 16 ≤ dim) :
    15 < resolveDay r dim := by
  unfold resolveDay
  rw [hf, hq]
  simp only []
  split
  · omega
  · omega

/-- C3: every transaction the engine generates from a `BIWEEKLY` rule with
`quincenaN = Q1` has day-of-month at most 15, and from a `BIWEEKLY` rule
with `quincenaN = Q2` a day strictly above 15, provided the rules carry a
valid anchor day (`baseDateDay ≥ 1`, as the data model requires). -/
theorem expand_quincena_containment (rules : List RecurrenceRule)
    (existing : List Transaction) (m y : Nat)
    (exceptions : List RecurrenceException)
    (hbase : ∀ r, r ∈ rules → 1 ≤ r.baseDateDay) (g : Transaction)
    (hg : g ∈ generateMissingRecurringTransactions rules existing m y
      exceptions) :
    ∃ r, r ∈ rules ∧ g.recurrenceRuleId = some r.id ∧
      (r.frequency = Frequency.BIWEEKLY →
        (r.quincenaN = some Quincena.Q1 → g.date.day ≤ 15) ∧
        (r.quincenaN = some Quincena.Q2 → 15 < g.date.day)) := by
  obtain ⟨r, hr, hsome⟩ := mem_generate_iff.mp hg
  obtain ⟨hgm, _, _, _, _⟩ := expandRule_eq_some hsome
  subst hgm
  refine ⟨r, hr, materialize_ruleId r m y, fun hf => ⟨fun hq => ?_, fun hq => ?_⟩⟩
  · rw [materialize_date]
    exact resolveDay_q1 r (daysInMonth y m) hf hq
  · rw [materialize_date]
    exact resolveDay_q2 r (daysInMonth y m) hf hq (hbase r hr)
      (le_trans (by decide) (daysInMonth_ge y m))

/-- Concrete instantiation of the quincena theorem: a biweekly `Q2` rule
anchored at day 10 generates day 25 in February 2024 — strictly above 15. -/
def quincenaRuleEx : RecurrenceRule :=
  ⟨2, Frequency.BIWEEKLY, some Quincena.Q2, ⟨2024, 1, 1⟩, none,
    50, TransactionType.INCOME, 1, 1, "", 10⟩

theorem expand_quincena_containment_witness :
    (∀ r, r ∈ [quincenaRuleEx] → 1 ≤ r.baseDateDay) ∧
      ∃ r, r ∈ [quincenaRuleEx] ∧
        (materialize quincenaRuleEx 2 2024).recurrenceRuleId = some r.id ∧
        (r.frequency = Frequency.BIWEEKLY →
          (r.quincenaN = some Quincena.Q1 →
            (materialize quincenaRuleEx 2 2024).date.day ≤ 15) ∧
          (r.quincenaN = some Quincena.Q2 →
            15 < (materialize quincenaRuleEx 2 2024).date.day)) :=
  ⟨by decide,
    expand_quincena_containment [quincenaRuleEx] [] 2 2024 [] (by decide)
      (materialize quincenaRuleEx 2 2024) (by decide)⟩

/- ### Application state and the mutation operations of `App.tsx` -/

/-- The collections `App.tsx` holds in React state (lines 187-191); the
view/theme/session state is UI plumbing outside the verified core. -/
structure AppState where
  transactions : List Transaction
  rules : List RecurrenceRule
  exceptions : List RecurrenceException
  accounts : List Account
deriving DecidableEq

/-- The balance recomputation `App.tsx` performs after mutations
(e.g. lines 657-660): filter the store to one account's transactions and
fold income as `+`, expense as `-`. -/
def accountBalance (txs : List Transaction) (aid : Nat) : Int :=
  (txs.filter fun u => u.accountId == aid).foldl
    (fun acc u =>
      if u.type == TransactionType.INCOME then acc + u.amount
      else acc - u.amount) 0

/-- Write `balance` into the account with the given id (the
`setAccounts(prev => prev.map(...))` pattern of `App.tsx`). -/
def setBalance (accounts : List Account) (aid : Nat) (balance : Int) :
    List Account :=
  accounts.map fun a => if a.id == aid then { a with balance := balance } else a

/-- `App.tsx` lines 672-696, `performDeleteInstance`: deleting a single
instance of a recurring transaction.  Guard: a transaction without a
`recurrenceRuleId` leaves the state untouched.  Otherwise the
`(ruleId, date)` pair is appended to the exception list unless already
present, the transaction is removed by id, and the transaction's account
balance is recomputed over the remaining transactions. -/
def performDeleteInstance (tx : Transaction) (s : AppState) : AppState :=
  match tx.recurrenceRuleId with
  | none => s
  | some rid =>
    let newExceptions :=
      if s.exceptions.any fun e => e.ruleId == rid && e.date == tx.date
      then s.exceptions
      else s.exceptions ++ [⟨rid, tx.date⟩]
    let updatedTransactions := s.transactions.filter fun u => u.id != tx.id
    { transactions := updatedTransactions
      rules := s.rules
      exceptions := newExceptions
      accounts := setBalance s.accounts tx.accountId
        (accountBalance updatedTransactions tx.accountId) }

/-- `App.tsx` lines 698-723, `performDeleteSeries`: deleting a whole
recurring series.  Guard as above; otherwise the rule, all exceptions
referencing it and all transactions referencing it are removed, and the
transaction's account balance is recomputed. -/
def performDeleteSeries (tx : Transaction) (s : AppState) : AppState :=
  match tx.recurrenceRuleId with
  | none => s
  | some rid =>
    let updatedTransactions :=
      s.transactions.filter fun u => u.recurrenceRuleId != some rid
    { transactions := updatedTransactions
      rules := s.rules.filter fun r => r.id != rid
      exceptions := s.exceptions.filter fun e => e.ruleId != rid
      accounts := setBalance s.accounts tx.accountId
        (accountBalance updatedTransactions tx.accountId) }

/- ### Shared lemmas about exceptions and generated rule ids -/

theorem exception_respected {rules : List RecurrenceRule}
    {existing : List Transaction} {m y : Nat}
    {E : List RecurrenceException} {e : RecurrenceException}
    {g : Transaction} (he : e ∈ E)
    (hg : g ∈ generateMissingRecurringTransactions rules existing m y E) :
    ¬(g.recurrenceRuleId = some e.ruleId ∧ g.date = e.date) := by
  rintro ⟨hid, hd⟩
  obtain ⟨r, _, hsome⟩ := mem_generate_iff.mp hg
  obtain ⟨hgm, _, _, _, hI⟩ := expandRule_eq_some hsome
  subst hgm
  rw [materialize_ruleId] at hid
  rw [materialize_date] at hd
  have : isException E r (candidateDate r m y) = true := by
    unfold isException
    rw [List.any_eq_true]
    refine ⟨e, he, ?_⟩
    have h1 : e.ruleId = r.id := by
      have := hid
      simp only [Option.some.injEq] at this
      omega
    rw [h1, hd]
    simp
  rw [this] at hI
  exact absurd hI (by simp)

theorem generated_ruleId_mem {rules : List RecurrenceRule}
    {existing : List Transaction} {m y : Nat}
    {E : List RecurrenceException} {g : Transaction}
    (hg : g ∈ generateMissingRecurringTransactions rules existing m y E) :
    ∃ r, r ∈ rules ∧ g.recurrenceRuleId = some r.id := by
  obtain ⟨r, hr, hsome⟩ := mem_generate_iff.mp hg
  obtain ⟨hgm, _⟩ := expandRule_eq_some hsome
  subst hgm
  exact ⟨r, hr, materialize_ruleId r m y⟩

/-- C4: deleting one instance of a recurring transaction records the
`(ruleId, date)` pair as an exception and removes that transaction record;
and for any pair in an exception set, no invocation of the expansion
engine ever produces a transaction with that `(recurrenceRuleId, date)`. -/
theorem delete_instance_respects_exceptions (tx : Transaction)
    (s : AppState) (rid : Nat) (hrid : tx.recurrenceRuleId = some rid) :
    (⟨rid, tx.date⟩ : RecurrenceException) ∈
        (performDeleteInstance tx s).exceptions ∧
      (∀ u, u ∈ (performDeleteInstance tx s).transactions → u.id ≠ tx.id) ∧
      (∀ e, e ∈ (performDeleteInstance tx s).exceptions →
        ∀ rules existing m y g,
        g ∈ generateMissingRecurringTransactions rules existing m y
          (performDeleteInstance tx s).exceptions →
        ¬(g.recurrenceRuleId = some e.ruleId ∧ g.date = e.date)) := by
  have hmem : (⟨rid, tx.date⟩ : RecurrenceException) ∈
      (performDeleteInstance tx s).exceptions := by
    unfold performDeleteInstance
    rw [hrid]
    simp only []
    split
    case isTrue hany =>
      rw [List.any_eq_true] at hany
      obtain ⟨e, he, hpe⟩ := hany
      simp only [Bool.and_eq_true, beq_iff_eq] at hpe
      have : e = ⟨rid, tx.date⟩ := by
        cases e
        simp_all
      rw [← this]
      exact he
    case isFalse =>
      exact List.mem_append_right _ (List.mem_singleton.mpr rfl)
  refine ⟨hmem, ?_, ?_⟩
  · intro u hu
    unfold performDeleteInstance at hu
    rw [hrid] at hu
    simp only [List.mem_filter] at hu
    have := hu.2
    simpa [bne_iff_ne] using this
  · intro e he rules existing m y g hg hcontra
    exact exception_respected he hg hcontra

/-- Concrete instantiation of the delete-instance theorem: deleting the
generated instance of rule 3 for 2024-05-01 records exception (3,
2024-05-01). -/
def delInstTxEx : Transaction :=
  ⟨9, 20, TransactionType.EXPENSE, ⟨2024, 5, 1⟩, 1, 1, "", true, some 3⟩

def delInstStateEx : AppState :=
  ⟨[delInstTxEx], [], [], [⟨1, "Efectivo", AccountKind.CASH, 0⟩]⟩

theorem delete_instance_respects_exceptions_witness :
    (⟨3, ⟨2024, 5, 1⟩⟩ : RecurrenceException) ∈
      (performDeleteInstance delInstTxEx delInstStateEx).exceptions :=
  (delete_instance_respects_exceptions delInstTxEx delInstStateEx 3 rfl).1

/-- C6: deleting a whole series removes the rule, every exception
referencing it, and every transaction referencing it; afterwards no
expansion over the remaining rules, for any month/year and inputs, yields
a transaction carrying that rule id. -/
theorem delete_series_removes_rule (tx : Transaction) (s : AppState)
    (rid : Nat) (hrid : tx.recurrenceRuleId = some rid) :
    (∀ r, r ∈ (performDeleteSeries tx s).rules → r.id ≠ rid) ∧
      (∀ e, e ∈ (performDeleteSeries tx s).exceptions → e.ruleId ≠ rid) ∧
      (∀ u, u ∈ (performDeleteSeries tx s).transactions →
        u.recurrenceRuleId ≠ some rid) ∧
      (∀ existing m y E g,
        g ∈ generateMissingRecurringTransactions
          (performDeleteSeries tx s).rules existing m y E →
        g.recurrenceRuleId ≠ some rid) := by
  have hrules : ∀ r, r ∈ (performDeleteSeries tx s).rules → r.id ≠ rid := by
    intro r hr
    unfold performDeleteSeries at hr
    rw [hrid] at hr
    simp only [List.mem_filter] at hr
    simpa [bne_iff_ne] using hr.2
  refine ⟨hrules, ?_, ?_, ?_⟩
  · intro e he
    unfold performDeleteSeries at he
    rw [hrid] at he
    simp only [List.mem_filter] at he
    simpa [bne_iff_ne] using he.2
  · intro u hu
    unfold performDeleteSeries at hu
    rw [hrid] at hu
    simp only [List.mem_filter] at hu
    simpa [bne_iff_ne] using hu.2
  · intro existing m y E g hg
    obtain ⟨r, hr, hgid⟩ := generated_ruleId_mem hg
    rw [hgid]
    intro hcontra
    simp only [Option.some.injEq] at hcontra
    exact hrules r hr hcontra

/-- Concrete instantiation of the series-deletion theorem: after deleting
the series of rule 4, no rule with id 4 remains. -/
def delSeriesTxEx : Transaction :=
  ⟨11, 30, TransactionType.EXPENSE, ⟨2024, 6, 15⟩, 1, 1, "", true, some 4⟩

def delSeriesOtherRuleEx : RecurrenceRule :=
  ⟨5, Frequency.MONTHLY, none, ⟨2024, 2, 1⟩, none, 10,
    TransactionType.INCOME, 1, 1, "", 1⟩

def delSeriesStateEx : AppState :=
  ⟨[delSeriesTxEx],
    [⟨4, Frequency.MONTHLY, none, ⟨2024, 1, 15⟩, none, 30,
      TransactionType.EXPENSE, 1, 1, "", 15⟩, delSeriesOtherRuleEx],
    [⟨4, ⟨2024, 4, 15⟩⟩],
    [⟨1, "Efectivo", AccountKind.CASH, 0⟩]⟩

theorem delete_series_removes_rule_witness : delSeriesOtherRuleEx.id ≠ 4 :=
  (delete_series_removes_rule delSeriesTxEx delSeriesStateEx 4 rfl).1
    delSeriesOtherRuleEx (by decide)

/- ### C10: invariants of `performDeleteInstance` -/

/-- No two entries of the exception list share their `(ruleId, date)`
pair. -/
def noDuplicatePairs (E : List RecurrenceException) : Prop :=
  List.Pairwise (fun a b => ¬(a.ruleId = b.ruleId ∧ a.date = b.date)) E

/-- C10: `performDeleteInstance` preserves pairwise-distinct exception
pairs; when the pair is already recorded the exception list is returned
unchanged; and a transaction without a `recurrenceRuleId` leaves the whole
state unchanged. -/
theorem delete_instance_invariants (tx : Transaction) (s : AppState) :
    (noDuplicatePairs s.exceptions →
        noDuplicatePairs (performDeleteInstance tx s).exceptions) ∧
      (∀ rid, tx.recurrenceRuleId = some rid →
        (⟨rid, tx.date⟩ : RecurrenceException) ∈ s.exceptions →
        (performDeleteInstance tx s).exceptions = s.exceptions) ∧
      (tx.recurrenceRuleId = none → performDeleteInstance tx s = s) := by
  refine ⟨?_, ?_, ?_⟩
  · intro hnd
    unfold performDeleteInstance
    cases hcase : tx.recurrenceRuleId with
    | none => exact hnd
    | some rid =>
      simp only []
      split
      case isTrue => exact hnd
      case isFalse hnotany =>
        unfold noDuplicatePairs
        rw [List.pairwise_append]
        refine ⟨hnd, List.pairwise_singleton _ _, ?_⟩
        intro a ha b hb
        rw [List.mem_singleton] at hb
        subst hb
        rintro ⟨h1, h2⟩
        have : s.exceptions.any
            (fun e => e.ruleId == rid && e.date == tx.date) = true := by
          rw [List.any_eq_true]
          exact ⟨a, ha, by simp [h1, h2]⟩
        exact hnotany this
  · intro rid hrid hmem
    unfold performDeleteInstance
    rw [hrid]
    simp only []
    have : s.exceptions.any
        (fun e => e.ruleId == rid && e.date == tx.date) = true := by
      rw [List.any_eq_true]
      exact ⟨⟨rid, tx.date⟩, hmem, by simp⟩
    rw [this]
    simp
  · intro hnone
    unfold performDeleteInstance
    rw [hnone]

theorem delete_instance_invariants_witness :
    performDeleteInstance
      ⟨12, 5, TransactionType.EXPENSE, ⟨2024, 7, 1⟩, 1, 1, "", false, none⟩
      ⟨[], [], [], []⟩ = ⟨[], [], [], []⟩ :=
  (delete_instance_invariants
    ⟨12, 5, TransactionType.EXPENSE, ⟨2024, 7, 1⟩, 1, 1, "", false, none⟩
    ⟨[], [], [], []⟩).2.2 rfl

/- ### The save/edit lifecycle of `App.tsx` (`handleSaveTransaction`) -/

/-- The `options` argument of `handleSaveTransaction`
(`App.tsx` lines 494-499). -/
structure SaveOptions where
  createRule : Bool
  frequency : Frequency
  quincenaN : Option Quincena
  updateFuture : Bool
deriving DecidableEq

/-- The calendar day immediately before `d`.  `App.tsx` lines 546-552
computes this through a JS `Date` round-trip; per the data model all dates
are naive calendar days, so the operation is the calendar predecessor. -/
def predDate (d : Date) : Date :=
  if d.day > 1 then ⟨d.year, d.month, d.day - 1⟩
  else if d.month > 1 then ⟨d.year, d.month - 1, daysInMonth d.year (d.month - 1)⟩
  else ⟨d.year - 1, 12, 31⟩

/-- Build a rule anchored at a transaction (the object literals at
`App.tsx` lines 509-520 and 558-569): `startDate` is the transaction's
date, `baseDateDay` its day-of-month, no `endDate`. -/
def mkRuleFromTx (ruleId : Nat) (freq : Frequency) (q : Option Quincena)
    (t : Transaction) : RecurrenceRule :=
  ⟨ruleId, freq, q, t.date, none, t.amount, t.type, t.categoryId,
    t.accountId, t.note, t.date.day⟩

/-- The `newTransactions.map(item => item.id === targetId ? newTx : item)`
pattern of `App.tsx`. -/
def replaceById (txs : List Transaction) (targetId : Nat)
    (newTx : Transaction) : List Transaction :=
  txs.map fun item => if item.id == targetId then newTx else item

/-- `App.tsx` lines 585-605: editing an existing transaction without
"update future".  A recurring transaction is detached — the edited fields
go onto a new appended transaction with a fresh id, `isRecurring = false`
and no rule link (the original record is not touched); a plain transaction
is updated in place by id.  Returns the new transaction list, rule list and
the transaction pushed to `transactionsToSync`. -/
def detachOrUpdate (t : Transaction) (ed : Transaction) (freshTxId : Nat)
    (s : AppState) :
    List Transaction × List RecurrenceRule × Option Transaction :=
  if ed.isRecurring then
    (s.transactions ++
        [{ t with id := freshTxId, isRecurring := false, recurrenceRuleId := none }],
      s.rules,
      some { t with id := freshTxId, isRecurring := false, recurrenceRuleId := none })
  else
    (replaceById s.transactions ed.id { t with id := ed.id }, s.rules,
      some { t with id := ed.id })

/-- `App.tsx` lines 540-584: the "update future" rule split.  The old rule
(found by the edited transaction's rule id) is end-dated to the day before
the edited date, a new rule starting at the edited date is appended, and
the edited transaction is relinked in place to the new rule.  When no rule
with that id exists nothing changes and nothing is synced. -/
def updateFutureSplit (t : Transaction) (o : SaveOptions) (ed : Transaction)
    (rid freshRuleId : Nat) (s : AppState) :
    List Transaction × List RecurrenceRule × Option Transaction :=
  match s.rules.findIdx? (fun r => r.id == rid) with
  | some idx =>
    match s.rules[idx]? with
    | some oldRule =>
      (replaceById s.transactions ed.id
          { t with id := ed.id, isRecurring := true, recurrenceRuleId := some freshRuleId },
        (s.rules.set idx { oldRule with endDate := some (predDate t.date) })
          ++ [mkRuleFromTx freshRuleId o.frequency o.quincenaN t],
        some { t with id := ed.id, isRecurring := true, recurrenceRuleId := some freshRuleId })
    | none => (s.transactions, s.rules, none)
  | none => (s.transactions, s.rules, none)

/-- The `else if (editingTransaction)` arm of `handleSaveTransaction`:
"update future" applies only when requested and the edited transaction is
linked to a rule; otherwise detach-or-update. -/
def saveEditBranch (t : Transaction) (options : Option SaveOptions)
    (ed : Transaction) (freshRuleId freshTxId : Nat) (s : AppState) :
    List Transaction × List RecurrenceRule × Option Transaction :=
  match options, ed.recurrenceRuleId with
  | some o, some rid =>
    if o.updateFuture then updateFutureSplit t o ed rid freshRuleId s
    else detachOrUpdate t ed freshTxId s
  | _, _ => detachOrUpdate t ed freshTxId s

/-- `App.tsx` lines 507-610: the branch structure of
`handleSaveTransaction` producing the new transaction list, the new rule
list, and the first (only) entry of `transactionsToSync`. -/
def savePure (t : Transaction) (options : Option SaveOptions)
    (editing : Option Transaction) (freshRuleId freshTxId : Nat)
    (s : AppState) :
    List Transaction × List RecurrenceRule × Option Transaction :=
  match options with
  | some o =>
    if o.createRule then
      let txId := match editing with | some ed => ed.id | none => freshTxId
      let txWithRule : Transaction :=
        { t with id := txId, isRecurring := true, recurrenceRuleId := some freshRuleId }
      let newTransactions := match editing with
        | some ed => replaceById s.transactions ed.id txWithRule
        | none => s.transactions ++ [txWithRule]
      (newTransactions,
        s.rules ++ [mkRuleFromTx freshRuleId o.frequency o.quincenaN t],
        some txWithRule)
    else
      match editing with
      | some ed => saveEditBranch t (some o) ed freshRuleId freshTxId s
      | none =>
        (s.transactions ++ [{ t with id := freshTxId }], s.rules,
          some { t with id := freshTxId })
  | none =>
    match editing with
    | some ed => saveEditBranch t none ed freshRuleId freshTxId s
    | none =>
      (s.transactions ++ [{ t with id := freshTxId }], s.rules,
        some { t with id := freshTxId })

/-- `App.tsx` lines 492-670, `handleSaveTransaction` (its pure state
transition): apply the save branches, then — when a transaction was synced
— recompute the balance of that single transaction's account over the new
transaction list (lines 654-665).  The exception list is never touched. -/
def handleSaveTransaction (t : Transaction) (options : Option SaveOptions)
    (editing : Option Transaction) (freshRuleId freshTxId : Nat)
    (s : AppState) : AppState :=
  let result := savePure t options editing freshRuleId freshTxId s
  match result.2.2 with
  | some tx0 =>
    { transactions := result.1
      rules := result.2.1
      exceptions := s.exceptions
      accounts := setBalance s.accounts tx0.accountId
        (accountBalance result.1 tx0.accountId) }
  | none =>
    { transactions := result.1
      rules := result.2.1
      exceptions := s.exceptions
      accounts := s.accounts }

/-- C5: editing a rule-linked transaction with "update future" end-dates
the old rule at the day before the edited date, appends a brand-new rule
starting at the edited date with the revised
amount/type/category/account/frequency/quincena, keeps the edited
transaction's id while relinking it to the new rule, and leaves every
other transaction (in particular all earlier instances of the old rule)
unchanged in the store. -/
theorem save_update_future_splits_rule (t : Transaction) (o : SaveOptions)
    (ed : Transaction) (rid freshRuleId freshTxId idx : Nat)
    (oldRule : RecurrenceRule) (s : AppState)
    (hcr : o.createRule = false) (huf : o.updateFuture = true)
    (hrid : ed.recurrenceRuleId = some rid)
    (hfind : s.rules.findIdx? (fun r => r.id == rid) = some idx)
    (hold : s.rules[idx]? = some oldRule)
    (hed : ed ∈ s.transactions) :
    ({ oldRule with endDate := some (predDate t.date) } : RecurrenceRule) ∈
        (handleSaveTransaction t (some o) (some ed) freshRuleId freshTxId
          s).rules ∧
      (∃ nr, nr ∈ (handleSaveTransaction t (some o) (some ed) freshRuleId
            freshTxId s).rules ∧
        nr.id = freshRuleId ∧ nr.startDate = t.date ∧ nr.endDate = none ∧
        nr.amount = t.amount ∧ nr.type = t.type ∧
        nr.categoryId = t.categoryId ∧ nr.accountId = t.accountId ∧
        nr.frequency = o.frequency ∧ nr.quincenaN = o.quincenaN) ∧
      ({ t with id := ed.id, isRecurring := true, recurrenceRuleId := some freshRuleId } : Transaction) ∈
        (handleSaveTransaction t (some o) (some ed) freshRuleId freshTxId
          s).transactions ∧
      (∀ u, u ∈ s.transactions → u.id ≠ ed.id →
        u ∈ (handleSaveTransaction t (some o) (some ed) freshRuleId
          freshTxId s).transactions) := by
  have hres : savePure t (some o) (some ed) freshRuleId freshTxId s =
      (replaceById s.transactions ed.id
          { t with id := ed.id, isRecurring := true, recurrenceRuleId := some freshRuleId },
        (s.rules.set idx { oldRule with endDate := some (predDate t.date) })
          ++ [mkRuleFromTx freshRuleId o.frequency o.quincenaN t],
        some { t with id := ed.id, isRecurring := true, recurrenceRuleId := some freshRuleId }) := by
    simp only [savePure, saveEditBranch, updateFutureSplit, hcr, huf, hrid,
      hfind, hold, Bool.false_eq_true, if_false, if_true]
  have hlt : idx < s.rules.length := by
    obtain ⟨h1, _⟩ := List.getElem?_eq_some_iff.mp hold
    exact h1
  have hrules : (handleSaveTransaction t (some o) (some ed) freshRuleId
      freshTxId s).rules =
      (s.rules.set idx { oldRule with endDate := some (predDate t.date) })
        ++ [mkRuleFromTx freshRuleId o.frequency o.quincenaN t] := by
    unfold handleSaveTransaction
    rw [hres]
  have htxs : (handleSaveTransaction t (some o) (some ed) freshRuleId
      freshTxId s).transactions =
      replaceById s.transactions ed.id
        { t with id := ed.id, isRecurring := true, recurrenceRuleId := some freshRuleId } := by
    unfold handleSaveTransaction
    rw [hres]
  refine ⟨?_, ?_, ?_, ?_⟩
  · rw [hrules]
    refine List.mem_append_left _ ?_
    rw [List.mem_iff_getElem?]
    exact ⟨idx, List.getElem?_set_self (by simpa using hlt)⟩
  · refine ⟨mkRuleFromTx freshRuleId o.frequency o.quincenaN t, ?_,
      rfl, rfl, rfl, rfl, rfl, rfl, rfl, rfl, rfl⟩
    rw [hrules]
    exact List.mem_append_right _ (List.mem_singleton.mpr rfl)
  · rw [htxs]
    unfold replaceById
    rw [List.mem_map]
    exact ⟨ed, hed, by simp⟩
  · intro u hu hne
    rw [htxs]
    unfold replaceById
    rw [List.mem_map]
    refine ⟨u, hu, ?_⟩
    have : (u.id == ed.id) = false := by
      simp [hne]
    rw [this]
    rfl

/-- Concrete instantiation of the rule-split theorem (the spec's §8
scenario): rule 1 is `MONTHLY`, starts 2024-01-01 with `baseDateDay` 15;
its 2024-03-15 instance is edited with "update future" to amount 500;
the old rule ends up end-dated 2024-03-14. -/
def splitRuleEx : RecurrenceRule :=
  ⟨1, Frequency.MONTHLY, none, ⟨2024, 1, 1⟩, none, 100,
    TransactionType.EXPENSE, 1, 1, "", 15⟩

def splitEdEx : Transaction :=
  ⟨5, 100, TransactionType.EXPENSE, ⟨2024, 3, 15⟩, 1, 1, "", true, some 1⟩

def splitFormEx : Transaction :=
  ⟨5, 500, TransactionType.EXPENSE, ⟨2024, 3, 15⟩, 1, 1, "", true, some 1⟩

def splitStateEx : AppState :=
  ⟨[⟨6, 100, TransactionType.EXPENSE, ⟨2024, 2, 15⟩, 1, 1, "", true, some 1⟩,
    splitEdEx],
    [splitRuleEx], [], [⟨1, "Efectivo", AccountKind.CASH, 0⟩]⟩

def splitOptsEx : SaveOptions :=
  ⟨false, Frequency.MONTHLY, none, true⟩

theorem save_update_future_splits_rule_witness :
    ({ splitRuleEx with endDate := some (predDate splitFormEx.date) } :
        RecurrenceRule) ∈
      (handleSaveTransaction splitFormEx (some splitOptsEx) (some splitEdEx)
        2 3 splitStateEx).rules :=
  (save_update_future_splits_rule splitFormEx splitOptsEx splitEdEx 1 2 3 0
    splitRuleEx splitStateEx rfl rfl rfl (by decide) (by decide)
    (by decide)).1

/- ### C7: editing "this occurrence only" (the detach path) -/

/-- A recurring instance of rule 7 as stored before the edit. -/
def detachOldTx : Transaction :=
  ⟨1, 100, TransactionType.EXPENSE, ⟨2024, 3, 15⟩, 1, 1, "", true, some 7⟩

/-- The same transaction as edited in the form (amount changed to 80). -/
def detachFormTx : Transaction :=
  ⟨1, 80, TransactionType.EXPENSE, ⟨2024, 3, 15⟩, 1, 1, "", true, some 7⟩

def detachRuleEx : RecurrenceRule :=
  ⟨7, Frequency.MONTHLY, none, ⟨2024, 1, 15⟩, none, 100,
    TransactionType.EXPENSE, 1, 1, "", 15⟩

def detachStateEx : AppState :=
  ⟨[detachOldTx], [detachRuleEx], [], [⟨1, "Efectivo", AccountKind.CASH, 0⟩]⟩

/-- C7 (code behaviour at the failing input): editing a recurring
transaction as "this occurrence only" appends the detached copy (fresh id
2, `isRecurring = false`, no rule link) but leaves the original recurring
instance in the transaction store and records no `RecurrenceException` —
the store ends up holding both the old instance and its edited
replacement, contradicting the claimed suppression of the original slot. -/
theorem detach_keeps_original_and_records_no_exception :
    (handleSaveTransaction detachFormTx none (some detachOldTx) 99 2
        detachStateEx).transactions =
      [detachOldTx,
        ⟨2, 80, TransactionType.EXPENSE, ⟨2024, 3, 15⟩, 1, 1, "", false,
          none⟩] ∧
    (handleSaveTransaction detachFormTx none (some detachOldTx) 99 2
        detachStateEx).exceptions = [] := by
  constructor
  · rfl
  · rfl

/- ### C8: account balances after transaction-set mutations -/

/-- `App.tsx` lines 443-476: the effect that merges the expansion output
for the displayed month into the transaction store.  It runs only when
rules exist and something was generated; it never touches the accounts. -/
def mergeExpansion (m y : Nat) (s : AppState) : AppState :=
  if s.rules.isEmpty then s
  else
    let generated :=
      generateMissingRecurringTransactions s.rules s.transactions m y
        s.exceptions
    if generated.isEmpty then s
    else { s with transactions := s.transactions ++ generated }

/-- The claimed invariant: every account's cached balance equals the
income-minus-expense sum over the transactions referencing it. -/
def balancesConsistent (s : AppState) : Prop :=
  ∀ a, a ∈ s.accounts → a.balance = accountBalance s.transactions a.id

def mergeRuleEx : RecurrenceRule :=
  ⟨8, Frequency.MONTHLY, none, ⟨2024, 1, 1⟩, none, 100,
    TransactionType.INCOME, 1, 1, "", 15⟩

def mergeStateEx : AppState :=
  ⟨[], [mergeRuleEx], [], [⟨1, "Efectivo", AccountKind.CASH, 0⟩]⟩

/-- C8 counterexample: merging expansion output is a mutation of the
transaction set after which the affected account's cached balance does
not equal the income-minus-expense sum — the merge effect generates a
100-income transaction for account 1 yet leaves its balance at 0. -/
theorem merge_expansion_breaks_balances :
    balancesConsistent mergeStateEx ∧
      ¬ balancesConsistent (mergeExpansion 3 2024 mergeStateEx) := by
  constructor
  · intro a ha
    simp only [mergeStateEx] at ha
    rw [List.mem_singleton] at ha
    subst ha
    rfl
  · intro h
    have := h ⟨1, "Efectivo", AccountKind.CASH, 0⟩ (by decide)
    simp only [] at this
    exact absurd this (by decide)

/-- C8 amended: after `handleSaveTransaction` syncs a transaction, the
account referenced by that transaction does have its balance recomputed
to the income-minus-expense sum over the new transaction list. -/
theorem save_recomputes_saved_account (t : Transaction)
    (options : Option SaveOptions) (editing : Option Transaction)
    (freshRuleId freshTxId : Nat) (s : AppState) (tx0 : Transaction)
    (a : Account)
    (hsync : (savePure t options editing freshRuleId freshTxId s).2.2 =
      some tx0)
    (ha : a ∈ (handleSaveTransaction t options editing freshRuleId
      freshTxId s).accounts)
    (hid : a.id = tx0.accountId) :
    a.balance = accountBalance
      (handleSaveTransaction t options editing freshRuleId freshTxId
        s).transactions tx0.accountId := by
  have hacc : (handleSaveTransaction t options editing freshRuleId
      freshTxId s).accounts = setBalance s.accounts tx0.accountId
      (accountBalance
        (savePure t options editing freshRuleId freshTxId s).1
        tx0.accountId) := by
    unfold handleSaveTransaction
    simp only [hsync]
  have htx : (handleSaveTransaction t options editing freshRuleId
      freshTxId s).transactions =
      (savePure t options editing freshRuleId freshTxId s).1 := by
    unfold handleSaveTransaction
    simp only [hsync]
  rw [htx]
  rw [hacc] at ha
  unfold setBalance at ha
  rw [List.mem_map] at ha
  obtain ⟨b, _, hb⟩ := ha
  by_cases hcase : (b.id == tx0.accountId) = true
  · rw [if_pos hcase] at hb
    rw [← hb]
  · rw [if_neg hcase] at hb
    rw [Bool.not_eq_true, beq_eq_false_iff_ne] at hcase
    subst hb
    exact absurd hid hcase

def saveAcctTxEx : Transaction :=
  ⟨0, 100, TransactionType.INCOME, ⟨2024, 4, 2⟩, 1, 1, "", false, none⟩

def saveAcctStateEx : AppState :=
  ⟨[], [], [], [⟨1, "Efectivo", AccountKind.CASH, 55⟩]⟩

theorem save_recomputes_saved_account_witness :
    (⟨1, "Efectivo", AccountKind.CASH, 100⟩ : Account).balance =
      accountBalance
        (handleSaveTransaction saveAcctTxEx none none 9 2
          saveAcctStateEx).transactions 1 :=
  save_recomputes_saved_account saveAcctTxEx none none 9 2 saveAcctStateEx
    ⟨2, 100, TransactionType.INCOME, ⟨2024, 4, 2⟩, 1, 1, "", false, none⟩
    ⟨1, "Efectivo", AccountKind.CASH, 100⟩ rfl (by decide) rfl

/- ### C9: the totals aggregator -/

/-- The output shape of the totals aggregator. -/
structure Totals where
  income : Int
  expense : Int
  balance : Int
deriving DecidableEq

/-- Modelled from the spec: `calculateTotals` from the missing `utils.ts`
module — income is the sum of amounts of `INCOME` transactions, expense
the sum of amounts of `EXPENSE` transactions, balance their difference. -/
def calculateTotals (txs : List Transaction) : Totals :=
  let income := (txs.filter fun u =>
    u.type == TransactionType.INCOME).foldl (fun acc u => acc + u.amount) 0
  let expense := (txs.filter fun u =>
    u.type == TransactionType.EXPENSE).foldl (fun acc u => acc + u.amount) 0
  ⟨income, expense, income - expense⟩

theorem foldl_add_amount (l : List Transaction) (i : Int) :
    l.foldl (fun acc u => acc + u.amount) i =
      i + (l.map Transaction.amount).sum := by
  induction l generalizing i with
  | nil => simp
  | cons hd tl ih => simp [ih, add_assoc]

/-- C9: `calculateTotals` returns the sum of `INCOME` amounts as income,
the sum of `EXPENSE` amounts as expense, their difference as balance; and
on `[(INCOME, 100), (EXPENSE, 40), (INCOME, 25)]` it yields
`(125, 40, 85)`. -/
theorem calculateTotals_correct (txs : List Transaction) :
    (calculateTotals txs).income =
        ((txs.filter fun u => u.type == TransactionType.INCOME).map
          Transaction.amount).sum ∧
      (calculateTotals txs).expense =
        ((txs.filter fun u => u.type == TransactionType.EXPENSE).map
          Transaction.amount).sum ∧
      (calculateTotals txs).balance =
        (calculateTotals txs).income - (calculateTotals txs).expense ∧
      calculateTotals
        [⟨1, 100, TransactionType.INCOME, ⟨2024, 1, 1⟩, 1, 1, "", false,
          none⟩,
         ⟨2, 40, TransactionType.EXPENSE, ⟨2024, 1, 2⟩, 1, 1, "", false,
          none⟩,
         ⟨3, 25, TransactionType.INCOME, ⟨2024, 1, 3⟩, 1, 1, "", false,
          none⟩] = ⟨125, 40, 85⟩ := by
  refine ⟨?_, ?_, rfl, by decide⟩
  · simp [calculateTotals, foldl_add_amount]
  · simp [calculateTotals, foldl_add_amount]

end FinanzaFlow
